import Mathlib

/-!
Verification of eureka-client: load balancer, discovery client and dispatch
client.

A shallow embedding of the Go packages `feign` (balance.go, client.go) and
`eureka` (client.go, api.go), followed by the properties established about
them.

Conventions of the embedding:

* A Go function that may stop with a run-time panic returns an `Outcome`.
* A Go `error` is an `Option GoError`, `none` being `nil`.
* Go `int` values are `Int`; slice indexing checks both bounds.
* The random source, the registry's HTTP replies and the reads of the
  `Running` flag are inputs of the functions that consume them.
-/

set_option linter.dupNamespace false

namespace EurekaClient

/-! ## Go run-time basics -/

/-- Result of running a Go function body: a run-time panic, or a normal return. -/
inductive Outcome (α : Type) where
  | panic : Outcome α
  | ret : α → Outcome α
deriving DecidableEq, Repr

/-- Sequencing of Go statements: a panic in the first aborts the rest. -/
def Outcome.bind {α β : Type} (x : Outcome α) (f : α → Outcome β) : Outcome β :=
  match x with
  | .panic => .panic
  | .ret a => f a

instance : Monad Outcome where
  pure := Outcome.ret
  bind := Outcome.bind

/-- The error values built by the two packages. -/
inductive GoError where
  /-- balance.go: "url列表为空" (the url list is empty). -/
  | emptyUrls
  /-- api.go: `ErrNotFound`. -/
  | notFound
  /-- api.go, Register: "status code is not match [200, 300)". -/
  | statusNot2xx
  /-- api.go, UnRegister and Refresh: "status code is not 200". -/
  | statusNot200
  /-- api.go, Heartbeat: "heartbeat failed, invalid status code: %d". -/
  | heartbeatStatus (code : Int)
  /-- An error handed back by the HTTP transport. -/
  | transport (msg : String)
  /-- An error handed back by `json.Unmarshal`. -/
  | unmarshal (msg : String)
  /-- An error handed back by `url.Parse`. -/
  | badUrl (msg : String)
deriving DecidableEq, Repr

/-- Go slice indexing `s[i]`: panics unless `0 ≤ i < len(s)`. -/
def sliceIndex {α : Type} (s : List α) (i : Int) : Outcome α :=
  if i < 0 then .panic
  else
    match s[i.toNat]? with
    | some a => .ret a
    | none => .panic

/-- Go `rand.Intn(n)`: panics if `n ≤ 0`, otherwise some value of `[0, n)`.
`rnd` is the raw value delivered by the random source for this draw; every
value of `[0, n)` is the result for some `rnd`. -/
def Intn (rnd : Nat) (n : Int) : Outcome Int :=
  if n ≤ 0 then .panic else .ret ((rnd : Int) % n)

/-! ## feign/balance.go -/

namespace feign

/-- The Go return type `(string, error)`. -/
abbrev StrErr := String × Option GoError

/-- balance.go: `type RandomBalance struct {}`. -/
structure RandomBalance where
deriving DecidableEq, Repr

/-- balance.go: `type RoundRobinBalance struct { curIndex int }`. -/
structure RoundRobinBalance where
  curIndex : Int
deriving DecidableEq, Repr

/-- balance.go: `func (b *RandomBalance) DoBalance(urls []string) (string, error)`. -/
def RandomBalance.DoBalance (_b : RandomBalance) (rnd : Nat) (urls : List String) :
    Outcome StrErr :=
  let lens : Int := urls.length
  if lens = 0 then
    .ret ("", some .emptyUrls)
  else do
    let index ← Intn rnd lens
    let inst ← sliceIndex urls index
    return (inst, none)

/-- balance.go: `func (b *RoundRobinBalance) DoBalance(urls []string) (string, error)`.
The second component is the receiver after the call. -/
def RoundRobinBalance.DoBalance (b : RoundRobinBalance) (urls : List String) :
    Outcome (StrErr × RoundRobinBalance) :=
  let lens : Int := urls.length
  if lens = 0 then
    .ret (("", some .emptyUrls), b)
  else
    let b1 : RoundRobinBalance := if b.curIndex ≥ lens then { curIndex := 0 } else b
    do
      let inst ← sliceIndex urls b1.curIndex
      let b2 : RoundRobinBalance := { curIndex := Int.tmod (b1.curIndex + 1) lens }
      return ((inst, none), b2)

/-- balance.go: `type Balance interface`, with its two implementations. -/
inductive Balance where
  | random (b : RandomBalance)
  | roundRobin (b : RoundRobinBalance)
deriving DecidableEq, Repr

/-- Method call `balance.DoBalance(urls)` on an interface value; `none` is the
nil interface, on which a method call panics. -/
def Balance.DoBalance (balance : Option Balance) (rnd : Nat) (urls : List String) :
    Outcome (StrErr × Option Balance) :=
  match balance with
  | none => .panic
  | some (.random b) => do
      let r ← b.DoBalance rnd urls
      return (r, some (.random b))
  | some (.roundRobin b) => do
      let (r, b2) ← b.DoBalance urls
      return (r, some (.roundRobin b2))

/-- balance.go: `type BalanceManager struct { balances map[string]Balance }`. -/
structure BalanceManager where
  balances : List (String × Balance)
deriving DecidableEq, Repr

/-- Go map read `m[k]`: the zero value (nil interface) for a missing key. -/
def mapGet (m : List (String × Balance)) (k : String) : Option Balance :=
  m.lookup k

/-- Go map write `m[k] = v`. -/
def mapSet (m : List (String × Balance)) (k : String) (v : Balance) :
    List (String × Balance) :=
  (k, v) :: m.filter (fun e => e.1 != k)

/-- balance.go: `func init()` applied to the empty `mgr`: both names are bound
to a `RandomBalance`. -/
def init : BalanceManager :=
  let mgr0 : BalanceManager := { balances := [] }
  let mgr1 : BalanceManager := { balances := mapSet mgr0.balances "random" (.random {}) }
  { balances := mapSet mgr1.balances "roundrobin" (.random {}) }

/-- The package variable `mgr` once the package is initialised. -/
def mgr : BalanceManager := init

/-- balance.go: `func DoBalance(balanceType string, urls []string) (string, error)`.
The manager is passed in and handed back, since the registered balancer is a
pointer whose state survives the call. -/
def DoBalance (m : BalanceManager) (rnd : Nat) (balanceType : String) (urls : List String) :
    Outcome (StrErr × BalanceManager) := do
  let balance := mapGet m.balances balanceType
  let (r, balance2) ← Balance.DoBalance balance rnd urls
  match balance2 with
  | some b => return (r, { balances := mapSet m.balances balanceType b })
  | none => return (r, m)

/-- Results of `k` consecutive `RoundRobinBalance.DoBalance` calls on the same
list, oldest first, with the balancer left behind. -/
def RoundRobinBalance.calls (b : RoundRobinBalance) (urls : List String) :
    Nat → Outcome (List StrErr × RoundRobinBalance)
  | 0 => .ret ([], b)
  | k + 1 => do
      let (r, b1) ← b.DoBalance urls
      let (rs, b2) ← RoundRobinBalance.calls b1 urls k
      return (r :: rs, b2)

/-- Results of consecutive package-level `DoBalance` calls, one per random
draw in `rnds`, oldest first. -/
def DoBalanceSeq (m : BalanceManager) (balanceType : String) (urls : List String) :
    List Nat → Outcome (List StrErr)
  | [] => .ret []
  | rnd :: rnds => do
      let (r, m1) ← DoBalance m rnd balanceType urls
      let rs ← DoBalanceSeq m1 balanceType urls rnds
      return r :: rs

/-- Element of a non-empty list at position `i` counted cyclically. -/
def cyclic (urls : List String) (h : urls ≠ []) (i : Nat) : String :=
  urls.get ⟨i % urls.length, Nat.mod_lt _ (List.length_pos.mpr h)⟩

/-- The cursor used by the next call: the stored one, or 0 when it drifted
past the list. -/
def startIndex (c : Int) (n : Nat) : Nat :=
  if c < (n : Int) then c.toNat else 0

end feign

/-! ## eureka/api.go and eureka/client.go -/

namespace eureka

/-- Modelled from the spec: the declaration of `Instance` is not among the
source files; the fields are the ones the source reads (`App`, `InstanceID`,
`HomePageURL`) and the status of the data model. -/
structure Instance where
  InstanceID : String
  App : String
  HomePageURL : String
  Status : String
deriving DecidableEq, Repr

/-- Modelled from the spec: the declaration of `Application` is not among the
source files; a named group of instances. -/
structure Application where
  Name : String
  Instances : List Instance
deriving DecidableEq, Repr

/-- Modelled from the spec: the declaration of `Applications` is not among the
source files; the snapshot of all applications known to the client. -/
structure Applications where
  Applications : List Application
deriving DecidableEq, Repr

/-- Modelled from the spec: the declaration of `Config` is not among the
source files; the fields are the ones the source reads. -/
structure Config where
  DefaultZone : String
  App : String
  Port : Int
  RenewalIntervalInSecs : Int
  RegistryFetchIntervalSeconds : Int
  DurationInSecs : Int
  instance_ : Instance
deriving DecidableEq, Repr

/-- HTTP verbs used against the registry and the instances. -/
inductive Verb where
  | GET | POST | PUT | DELETE
deriving DecidableEq, Repr

/-- What the source reads of a `resty.Response`. -/
structure Response where
  StatusCode : Int
  Body : String
deriving DecidableEq, Repr

/-- The pair `(resp, err)` of one HTTP exchange: a transport error, or a
response. -/
abbrev Reply := Except String Response

/-- The network at the moment of one call: the reply each request would get. -/
abbrev Http := Verb → String → Reply

/-- The decoder `json.Unmarshal` applied to a response body that carries the
applications document: a decoding error, or the decoded value. -/
abbrev Unmarshal := String → Except String Applications

/-- api.go: `func Register(zone, app string, instance *Instance) error`. -/
def Register (http : Http) (zone app : String) (_instance : Instance) : Option GoError :=
  let u := zone ++ "apps/" ++ app
  match http .POST u with
  | .error e => some (.transport e)
  | .ok resp =>
    if resp.StatusCode < 200 || resp.StatusCode ≥ 300 then some .statusNot2xx
    else none

/-- api.go: `func UnRegister(zone, app, instanceID string) error`. -/
def UnRegister (http : Http) (zone app instanceID : String) : Option GoError :=
  let u := zone ++ "apps/" ++ app ++ "/" ++ instanceID
  match http .DELETE u with
  | .error e => some (.transport e)
  | .ok resp =>
    if resp.StatusCode ≠ 200 then some .statusNot200
    else none

/-- api.go: `func Refresh(zone string) (*Applications, error)`. -/
def Refresh (http : Http) (unmarshal : Unmarshal) (zone : String) :
    Option Applications × Option GoError :=
  let u := zone ++ "apps"
  match http .GET u with
  | .error e => (none, some (.transport e))
  | .ok resp =>
    if resp.StatusCode ≠ 200 then (none, some .statusNot200)
    else
      match unmarshal resp.Body with
      | .error e => (none, some (.unmarshal e))
      | .ok apps => (some apps, none)

/-- api.go: `func Heartbeat(zone, app, instanceID string) error`. -/
def Heartbeat (http : Http) (zone app instanceID : String) : Option GoError :=
  let u := zone ++ "apps/" ++ app ++ "/" ++ instanceID
  match http .PUT u with
  | .error e => some (.transport e)
  | .ok resp =>
    if resp.StatusCode = 404 then some .notFound
    else if resp.StatusCode ≠ 200 then some (.heartbeatStatus resp.StatusCode)
    else none

/-- client.go: `type Client struct`; `once` records whether `once.Do` has run,
`Applications` is a pointer (`none` is nil). -/
structure Client where
  Running : Bool
  Config : Config
  Applications : Option Applications
  eurekaUrls : List String
  once : Bool
deriving DecidableEq, Repr

/-- Go `strings.Split(s, ",")`: the pieces of `s` between the commas. -/
def Split (s : String) (sep : Char) : List String :=
  (s.toList.splitOnP (fun ch => ch == sep)).map String.mk

/-- client.go: `func (c *Client) pickUrl() string`. -/
def pickUrl (c : Client) (rnd : Nat) : Outcome String := do
  let len : Int := c.eurekaUrls.length
  let index ← (if len > 1 then Intn rnd (len - 1) else pure 0)
  sliceIndex c.eurekaUrls index

/-- client.go: `func (c *Client) doRegister() error`. -/
def doRegister (c : Client) (rnd : Nat) (http : Http) : Outcome (Option GoError) := do
  let instance_ := c.Config.instance_
  let zone ← pickUrl c rnd
  return Register http zone c.Config.App instance_

/-- client.go: `func (c *Client) doUnRegister() error`. -/
def doUnRegister (c : Client) (rnd : Nat) (http : Http) : Outcome (Option GoError) := do
  let instance_ := c.Config.instance_
  let zone ← pickUrl c rnd
  return UnRegister http zone instance_.App instance_.InstanceID

/-- client.go: `func (c *Client) doHeartbeat() error`. -/
def doHeartbeat (c : Client) (rnd : Nat) (http : Http) : Outcome (Option GoError) := do
  let instance_ := c.Config.instance_
  let zone ← pickUrl c rnd
  return Heartbeat http zone instance_.App instance_.InstanceID

/-- client.go: `func (c *Client) doRefresh() error`, with the client after the
call. -/
def doRefresh (c : Client) (rnd : Nat) (http : Http) (unmarshal : Unmarshal) :
    Outcome (Client × Option GoError) := do
  let zone ← pickUrl c rnd
  let (applications, err) := Refresh http unmarshal zone
  match err with
  | some e => return (c, some e)
  | none => return ({ c with Applications := applications }, none)

/-- Background tasks launched by `Start`. -/
inductive Task where
  | refresh | heartbeat | handleSignal
deriving DecidableEq, Repr

/-- What a task does that is visible from outside, in order: registry calls
with the error they returned, `time.Sleep` with its duration in seconds, and
goroutine launches. Log lines are left out. -/
inductive Event where
  | register (err : Option GoError)
  | heartbeat (err : Option GoError)
  | sleep (seconds : Int)
  | go (task : Task)
deriving DecidableEq, Repr

/-- Inputs of a running task: `rand n` and `http n` are the random draw and the
network offered to registry call number `n` of the task, `running i` is the
value of `c.Running` read by loop iteration number `i`. -/
structure Env where
  rand : Nat → Nat
  http : Nat → Http
  running : Nat → Bool

/-- A run that needs more loop iterations than `fuel` allows stops with the
events so far and `false`; a run that left its loop ends with `true`. -/
abbrev Run := Outcome (List Event × Bool)

/-- Put events in front of the rest of a run. -/
def Run.after (es : List Event) (r : Run) : Run := do
  let (t, fin) ← r
  return (es ++ t, fin)

/-- client.go: `func (c *Client) heartbeat()`; `iter` counts the loop
iterations so far and `n` the registry calls so far. -/
def heartbeat (env : Env) (c : Client) : Nat → Nat → Nat → Run
  | 0, _, _ => .ret ([], false)
  | fuel + 1, iter, n =>
    if env.running iter then do
      let err ← doHeartbeat c (env.rand n) (env.http n)
      match err with
      | some e =>
        if e = GoError.notFound then do
          let err2 ← doRegister c (env.rand (n + 1)) (env.http (n + 1))
          -- continue
          Run.after [.heartbeat err, .register err2] (heartbeat env c fuel (iter + 1) (n + 2))
        else
          Run.after [.heartbeat err, .sleep c.Config.RenewalIntervalInSecs]
            (heartbeat env c fuel (iter + 1) (n + 1))
      | none =>
        Run.after [.heartbeat err, .sleep c.Config.RenewalIntervalInSecs]
          (heartbeat env c fuel (iter + 1) (n + 1))
    else
      -- break
      .ret ([], true)

/-- The registration loop of `Start`, from registry call number `n`. -/
def registerLoop (env : Env) (c : Client) : Nat → Nat → Run
  | 0, _ => .ret ([], false)
  | fuel + 1, n => do
    let err ← doRegister c (env.rand n) (env.http n)
    match err with
    | some _ => Run.after [.register err, .sleep 5] (registerLoop env c fuel (n + 1))
    | none => .ret ([.register err], true)

/-- client.go: `func (c *Client) Start()`: the client after the first two
steps, and the run up to the launch of the three background tasks. -/
def Start (env : Env) (c : Client) (fuel : Nat) : Client × Run :=
  let c1 : Client :=
    if c.once then c
    else { c with eurekaUrls := Split c.Config.DefaultZone ',', once := true }
  let c2 : Client := { c1 with Running := true }
  (c2, do
    let (t, fin) ← registerLoop env c2 fuel 0
    if fin then
      return (t ++ [.go .refresh, .go .heartbeat, .go .handleSignal], true)
    else
      return (t, false))

/-- A configuration with the default intervals of `defaultConfig` and the
given zone list. -/
def configFor (zone : String) : Config :=
  { DefaultZone := zone, App := "server", Port := 80,
    RenewalIntervalInSecs := 30, RegistryFetchIntervalSeconds := 15,
    DurationInSecs := 90,
    instance_ := { InstanceID := "host:80", App := "server", HomePageURL := "", Status := "UP" } }

/-- client.go, `NewClient`: the struct literal `&Client{Config: config}`, all
other fields at their zero value. -/
def unstarted (config : Config) : Client :=
  { Running := false, Config := config, Applications := none, eurekaUrls := [], once := false }

/-- A started discovery client with the given registry endpoints and cache. -/
def clientWith (urls : List String) (apps : Option Applications) : Client :=
  { Running := true
    Config := configFor (",".intercalate urls)
    Applications := apps
    eurekaUrls := urls
    once := true }

/-- The events of failed registration attempts in `Start`: each attempt with its
error, followed by the 5 second sleep. -/
def failedAttempts : List GoError → List Event
  | [] => []
  | e :: es => .register (some e) :: .sleep 5 :: failedAttempts es

/-- The events that follow a not-found heartbeat, as a wait of one renewal
interval before the next heartbeat would show: one registration attempt, then
a sleep of `renewal` seconds (or the end of the observed run). The list is
inspected at its head only. -/
def reRegistersThenWaits (renewal : Int) : List Event → Bool
  | .heartbeat err :: rest =>
    if err = some GoError.notFound then
      match rest with
      | .register _ :: .sleep d :: _ => d == renewal
      | [.register _] => true
      | _ => false
    else true
  | _ => true

/-- The check `p` holds at every position of the event list. -/
def everyWindow (p : List Event → Bool) : List Event → Bool
  | [] => true
  | e :: rest => p (e :: rest) && everyWindow p rest

/-- A registry whose reply to registry call number `n` is `replies n`, whatever
the request; the `Running` flag always reads true. -/
def scriptedEnv (replies : Nat → Reply) : Env :=
  { rand := fun _ => 0
    http := fun n _ _ => replies n
    running := fun _ => true }

/-- A registry fetch fails: transport error, status other than 200, or a body
the decoder rejects. -/
def fetchFails (unmarshal : Unmarshal) (reply : Reply) : Prop :=
  match reply with
  | .error _ => True
  | .ok resp => resp.StatusCode ≠ 200 ∨ ∃ e, unmarshal resp.Body = .error e

end eureka

/-! ## feign/client.go -/

namespace feign

/-- What the source sets of a `resty.Client`. -/
structure RestyClient where
  HostURL : String
deriving DecidableEq, Repr

/-- What the source sets of a `resty.Request`; `client` is the pointer the
request was created from (`none` is nil). -/
structure Request where
  client : Option RestyClient
  Body : Option String
  Result : Option String
  QueryParams : List (String × String)
  Headers : List (String × String)
  QueryString : String
deriving DecidableEq, Repr

/-- client.go: `type Result struct { Resp *resty.Response; Err error }`. -/
structure Result where
  Resp : Option eureka.Response
  Err : Option GoError
deriving DecidableEq, Repr

/-- client.go: `type Client struct`; the two pointers are `none` when nil. -/
structure Client where
  eurekaClient : Option eureka.Client
  headers : Option (List (String × String))
  body : Option String
  params : Option (List (String × String))
  result : Option String
deriving DecidableEq, Repr

/-- What the source reads of a parsed `url.URL`. -/
structure URL where
  Host : String
  Path : String
  RawQuery : String
deriving DecidableEq, Repr

/-- The library function `url.Parse`. -/
abbrev UrlParse := String → Except String URL

/-- The library function `strings.ToUpper`. -/
abbrev Upper := String → String

/-- The HTTP exchange resty performs for a request created from a non-nil
client: target client, verb, request and path give the pair `(resp, err)`. -/
abbrev Send := RestyClient → eureka.Verb → Request → String → Result

/-- The function `strings.ToUpper` on the letters `a` to `z`; other characters
are kept. -/
def asciiUpper : Upper :=
  fun s => String.mk (s.toList.map Char.toUpper)

/-- Go `strings.TrimRight(s, cutset)`: `s` without its trailing characters
that belong to `cutset`. -/
def TrimRight (s : String) (cutset : List Char) : String :=
  String.mk (s.toList.reverse.dropWhile (fun ch => cutset.contains ch)).reverse

/-- resty: `func (c *Client) R() *Request`, a fresh request that remembers the
client pointer it was created from. -/
def R (cl : Option RestyClient) : Request :=
  { client := cl, Body := none, Result := none, QueryParams := [], Headers := [],
    QueryString := "" }

/-- resty: `Request.Get` and `Request.Post` run `Request.Execute`, which reads
fields of the request's client; with a nil client that read is a nil pointer
dereference, a run-time panic. -/
def Execute (send : Send) (verb : eureka.Verb) (request : Request) (path : String) :
    Outcome Result :=
  match request.client with
  | none => .panic
  | some cl => .ret (send cl verb request path)

/-- client.go: `func (c *Client) getApplication(app string) (eureka.Application, bool)`.
Reading through a nil `eurekaClient` or a nil `Applications` pointer panics. -/
def Client.getApplication (c : Client) (app : String) :
    Outcome (eureka.Application × Bool) :=
  match c.eurekaClient with
  | none => .panic
  | some ec =>
    match ec.Applications with
    | none => .panic
    | some apps =>
      match apps.Applications.find? (fun application => application.Name == app) with
      | some application => .ret (application, true)
      | none => .ret ({ Name := "", Instances := [] }, false)

/-- client.go: `func (c *Client) getAppUrls(app string) ([]string, bool)`. -/
def Client.getAppUrls (c : Client) (app : String) : Outcome (List String × Bool) := do
  let (application, ok) ← c.getApplication app
  if ok then
    let tmpAppUrls := application.Instances.map (fun inst => TrimRight inst.HomePageURL ['/'])
    return (tmpAppUrls, true)
  else
    return ([], false)

/-- client.go: `func (c *Client) app(app string) *resty.Client`; `none` is the
nil pointer returned on the two failure paths. -/
def Client.app (c : Client) (m : BalanceManager) (rnd : Nat) (app : String) :
    Outcome (Option RestyClient × BalanceManager) := do
  let (appUrls, ok) ← c.getAppUrls app
  if !ok then
    return (none, m)
  else
    let ((u, err), m1) ← DoBalance m rnd "random" appUrls
    match err with
    | some _ => return (none, m1)
    | none => return (some { HostURL := u }, m1)

/-- The builder steps shared by `Get` and `Post`. -/
def Client.fill (c : Client) (request : Request) : Request :=
  let r1 := match c.body with
    | some b => { request with Body := some b }
    | none => request
  let r2 := match c.result with
    | some r => { r1 with Result := some r }
    | none => r1
  let r3 := match c.params with
    | some ps => { r2 with QueryParams := ps }
    | none => r2
  match c.headers with
  | some hs => { r3 with Headers := hs }
  | none => r3

/-- client.go: `func (c *Client) Get(rawURL string) *Result`. -/
def Client.Get (c : Client) (parse : UrlParse) (upper : Upper) (send : Send)
    (m : BalanceManager) (rnd : Nat) (rawURL : String) :
    Outcome (Result × BalanceManager) :=
  match parse rawURL with
  | .error e => .ret ({ Resp := none, Err := some (.badUrl e) }, m)
  | .ok u => do
    let (cl, m1) ← c.app m rnd (upper u.Host)
    let request := c.fill (R cl)
    let res ← Execute send .GET { request with QueryString := u.RawQuery } u.Path
    return (res, m1)

/-- client.go: `func (c *Client) Post(rawURL string) *Result`. -/
def Client.Post (c : Client) (parse : UrlParse) (upper : Upper) (send : Send)
    (m : BalanceManager) (rnd : Nat) (rawURL : String) :
    Outcome (Result × BalanceManager) :=
  match parse rawURL with
  | .error e => .ret ({ Resp := none, Err := some (.badUrl e) }, m)
  | .ok u => do
    let (cl, m1) ← c.app m rnd (upper u.Host)
    let request := c.fill (R cl)
    let res ← Execute send .POST request u.Path
    return (res, m1)

/-- The lookup done by `Get` and `Post` for a parsed host: normalise the name,
then `getApplication`. -/
def Client.lookup (c : Client) (upper : Upper) (host : String) :
    Outcome (eureka.Application × Bool) :=
  c.getApplication (upper host)

/-- Two names are equal ignoring letter case: the case normalisation maps them
to the same string. -/
def eqIgnoreCase (upper : Upper) (a b : String) : Prop :=
  upper a = upper b

/-- A dispatch client over a discovery client whose cache holds `apps`. -/
def clientOver (apps : List eureka.Application) : Client :=
  { eurekaClient := some (eureka.clientWith ["http://localhost:8761/eureka/"] (some ⟨apps⟩))
    headers := none, body := none, params := none, result := none }

end feign

/-! ## Basic lemmas -/

theorem sliceIndex_nat {α : Type} (s : List α) (i : Nat) (h : i < s.length) :
    sliceIndex s (i : Int) = .ret (s.get ⟨i, h⟩) := by
  unfold sliceIndex
  have hneg : ¬ ((i : Int) < 0) := by omega
  simp [hneg, List.getElem?_eq_getElem h]

theorem bind_ret {α β : Type} (a : α) (f : α → Outcome β) :
    (Outcome.ret a >>= f) = f a := rfl

theorem bind_panic {α β : Type} (f : α → Outcome β) :
    ((Outcome.panic : Outcome α) >>= f) = Outcome.panic := rfl

theorem pure_eq_ret {α : Type} (a : α) : (pure a : Outcome α) = Outcome.ret a := rfl

/-! ## Properties of the load balancer -/

namespace feign

theorem cyclic_mod_add (urls : List String) (h : urls ≠ []) (i j : Nat) :
    cyclic urls h (i % urls.length + j) = cyclic urls h (i + j) := by
  unfold cyclic
  congr 2
  exact Nat.mod_add_mod i urls.length j

theorem cyclic_mem (urls : List String) (h : urls ≠ []) (i : Nat) :
    cyclic urls h i ∈ urls :=
  List.get_mem _ _ _

/-- One round-robin call with the cursor inside the list. -/
theorem roundRobin_step (urls : List String) (h : urls ≠ []) (i : Nat)
    (hi : i < urls.length) :
    RoundRobinBalance.DoBalance ⟨(i : Int)⟩ urls
      = .ret ((cyclic urls h i, none), ⟨(((i + 1) % urls.length : Nat) : Int)⟩) := by
  have hpos : 0 < urls.length := List.length_pos.mpr h
  have hlen : ¬ ((urls.length : Int) = 0) := by omega
  have hge : ¬ ((i : Int) ≥ (urls.length : Int)) := by omega
  have hmod : Int.tmod ((i : Int) + 1) (urls.length : Int)
      = (((i + 1) % urls.length : Nat) : Int) := by
    rw [Int.tmod_eq_emod (by omega) (by omega)]
    push_cast
    rfl
  unfold RoundRobinBalance.DoBalance
  simp only [hlen, hge, if_false]
  rw [sliceIndex_nat urls i hi, bind_ret, hmod]
  simp only [pure_eq_ret, cyclic, Nat.mod_eq_of_lt hi]

/-- One round-robin call with a drifted cursor behaves as with cursor 0. -/
theorem roundRobin_drift (urls : List String) (h : urls ≠ []) (c : Int)
    (hc : (urls.length : Int) ≤ c) :
    RoundRobinBalance.DoBalance ⟨c⟩ urls = RoundRobinBalance.DoBalance ⟨0⟩ urls := by
  have hpos : 0 < urls.length := List.length_pos.mpr h
  have hlen : ¬ ((urls.length : Int) = 0) := by omega
  have h0 : ¬ ((0 : Int) ≥ (urls.length : Int)) := by omega
  have hge : c ≥ (urls.length : Int) := hc
  unfold RoundRobinBalance.DoBalance
  simp only [hlen, hge, h0, if_false, if_true]

/-- The first `k` round-robin calls from a cursor inside the list. -/
theorem roundRobin_calls_nat (urls : List String) (h : urls ≠ []) (k : Nat) :
    ∀ i : Nat, i < urls.length →
      RoundRobinBalance.calls ⟨(i : Int)⟩ urls k
        = .ret ((List.range k).map (fun j => ((cyclic urls h (i + j), none) : StrErr)),
                ⟨(((i + k) % urls.length : Nat) : Int)⟩) := by
  have hpos : 0 < urls.length := List.length_pos.mpr h
  induction k with
  | zero =>
      intro i hi
      simp [RoundRobinBalance.calls, Nat.mod_eq_of_lt hi]
  | succ k ih =>
      intro i hi
      have hlt : (i + 1) % urls.length < urls.length := Nat.mod_lt _ hpos
      unfold RoundRobinBalance.calls
      rw [roundRobin_step urls h i hi, bind_ret]
      simp only []
      rw [ih _ hlt, bind_ret]
      simp only [pure_eq_ret, cyclic_mod_add, Nat.mod_add_mod]
      rw [List.range_succ_eq_map]
      simp only [List.map_cons, List.map_map, Nat.add_zero]
      have hf : (fun j => ((cyclic urls h (i + 1 + j), none) : StrErr))
          = ((fun j => ((cyclic urls h (i + j), none) : StrErr)) ∘ Nat.succ) := by
        funext j
        simp only [Function.comp, Nat.succ_eq_add_one]
        rw [show i + 1 + j = i + (j + 1) by omega]
      rw [hf, show i + 1 + k = i + (k + 1) by omega]

/-- Claim C1. For a non-empty list of length `n` and a balancer whose cursor
`c` is a list position (`0 ≤ c`), with `s = c` if `c < n` and `s = 0`
otherwise: the first `k + 1` consecutive `DoBalance` calls all return without
error, call number `j` returning `urls[(s + j) mod n]`, and the cursor is
then `(s + k + 1) mod n`. A fresh balancer returns the `n` elements in list
order over its first `n` calls and is back at cursor 0. -/
theorem roundRobin_visits_in_order (urls : List String) (c : Int) (k : Nat)
    (hne : urls ≠ []) (hc : 0 ≤ c) :
    RoundRobinBalance.calls ⟨c⟩ urls (k + 1)
        = .ret ((List.range (k + 1)).map
                  (fun j => ((cyclic urls hne (startIndex c urls.length + j), none) : StrErr)),
                ⟨(((startIndex c urls.length + (k + 1)) % urls.length : Nat) : Int)⟩)
      ∧ RoundRobinBalance.calls ⟨0⟩ urls urls.length
        = .ret (urls.map (fun u => ((u, none) : StrErr)), ⟨0⟩) := by
  have hpos : 0 < urls.length := List.length_pos.mpr hne
  constructor
  · by_cases hlt : c < (urls.length : Int)
    · have hs : startIndex c urls.length = c.toNat := by simp [startIndex, hlt]
      have hcs : c = ((c.toNat : Nat) : Int) := by omega
      have hi : c.toNat < urls.length := by omega
      rw [hs]
      have := roundRobin_calls_nat urls hne (k + 1) c.toNat hi
      rw [← hcs] at this
      exact this
    · have hs : startIndex c urls.length = 0 := by simp [startIndex, hlt]
      rw [hs]
      have h0 := roundRobin_calls_nat urls hne (k + 1) 0 hpos
      have hd := roundRobin_drift urls hne c (by omega)
      unfold RoundRobinBalance.calls at h0 ⊢
      rw [hd]
      exact h0
  · have h0 := roundRobin_calls_nat urls hne urls.length 0 hpos
    simp only [Nat.zero_add, Nat.mod_self] at h0
    rw [show ((0 : Nat) : Int) = 0 from rfl] at h0
    rw [h0]
    congr 2
    apply List.ext_getElem
    · simp
    · intro j h1 h2
      simp only [List.getElem_map, List.getElem_range, cyclic]
      simp only [List.length_map, List.length_range] at h1
      simp [Nat.mod_eq_of_lt h1]

theorem roundRobin_visits_in_order_witness :
    (["a", "b", "c"] : List String) ≠ [] ∧ (0 : Int) ≤ 5
      ∧ RoundRobinBalance.calls ⟨5⟩ ["a", "b", "c"] 4
          = .ret ([("a", none), ("b", none), ("c", none), ("a", none)], ⟨1⟩) := by
  refine ⟨by decide, by decide, ?_⟩
  have h := (roundRobin_visits_in_order ["a", "b", "c"] 5 3 (by decide) (by decide)).1
  rw [h]
  decide

/-- Random selection on a non-empty list returns one of its elements. -/
theorem random_nonempty (b : RandomBalance) (rnd : Nat) (urls : List String)
    (hne : urls ≠ []) :
    ∃ u, u ∈ urls ∧ b.DoBalance rnd urls = .ret (u, none) := by
  have hpos : 0 < urls.length := List.length_pos.mpr hne
  have hlen : ¬ ((urls.length : Int) = 0) := by omega
  have hle : ¬ ((urls.length : Int) ≤ 0) := by omega
  have hlt : rnd % urls.length < urls.length := Nat.mod_lt _ hpos
  refine ⟨urls.get ⟨rnd % urls.length, hlt⟩, List.get_mem _ _ _, ?_⟩
  unfold RandomBalance.DoBalance Intn
  simp only [hlen, hle, if_false]
  rw [bind_ret, show ((rnd : Int) % (urls.length : Int)) = ((rnd % urls.length : Nat) : Int)
    from (Int.natCast_mod rnd urls.length).symm]
  rw [sliceIndex_nat urls _ hlt, bind_ret]
  rfl

/-- Round-robin selection on a non-empty list, from a cursor that is a list
position, returns one of its elements and leaves a cursor inside the list. -/
theorem roundRobin_nonempty (b : RoundRobinBalance) (urls : List String)
    (hne : urls ≠ []) (hc : 0 ≤ b.curIndex) :
    ∃ u b2, u ∈ urls ∧ b.DoBalance urls = .ret ((u, none), b2)
      ∧ 0 ≤ b2.curIndex ∧ b2.curIndex < (urls.length : Int) := by
  have hpos : 0 < urls.length := List.length_pos.mpr hne
  obtain ⟨c⟩ := b
  simp only at hc
  by_cases hlt : c < (urls.length : Int)
  · have hcs : c = ((c.toNat : Nat) : Int) := by omega
    have hi : c.toNat < urls.length := by omega
    have hm : (c.toNat + 1) % urls.length < urls.length := Nat.mod_lt _ hpos
    refine ⟨cyclic urls hne c.toNat, ⟨(((c.toNat + 1) % urls.length : Nat) : Int)⟩,
      cyclic_mem _ _ _, ?_, by simp only; omega, by simp only; omega⟩
    have := roundRobin_step urls hne c.toNat hi
    rw [← hcs] at this
    exact this
  · have hm : (0 + 1) % urls.length < urls.length := Nat.mod_lt _ hpos
    refine ⟨cyclic urls hne 0, ⟨(((0 + 1) % urls.length : Nat) : Int)⟩,
      cyclic_mem _ _ _, ?_, by simp only; omega, by simp only; omega⟩
    rw [roundRobin_drift urls hne c (by omega)]
    exact roundRobin_step urls hne 0 hpos

/-- Claim C9. For both policies and every list: on the empty list `DoBalance`
returns the empty string with the empty-candidate error and the round-robin
cursor is unchanged; on a non-empty list it returns, with a nil error, an
element of the list (for round-robin: from any cursor that is a list position,
`0 ≤ curIndex`). So the error is reported exactly when the list is empty, and
no case panics. -/
theorem doBalance_empty_iff_error (r : RandomBalance) (b : RoundRobinBalance) (rnd : Nat)
    (urls : List String) (hc : 0 ≤ b.curIndex) :
    (urls = [] →
        r.DoBalance rnd urls = .ret ("", some .emptyUrls)
          ∧ b.DoBalance urls = .ret (("", some .emptyUrls), b))
      ∧ (urls ≠ [] →
        (∃ u, u ∈ urls ∧ r.DoBalance rnd urls = .ret (u, none))
          ∧ (∃ u b2, u ∈ urls ∧ b.DoBalance urls = .ret ((u, none), b2)))
      ∧ ((∃ u, r.DoBalance rnd urls = .ret (u, some .emptyUrls)) ↔ urls = [])
      ∧ ((∃ u b2, b.DoBalance urls = .ret ((u, some .emptyUrls), b2)) ↔ urls = []) := by
  have hE : urls = [] →
      r.DoBalance rnd urls = .ret ("", some .emptyUrls)
        ∧ b.DoBalance urls = .ret (("", some .emptyUrls), b) := by
    intro he
    subst he
    exact ⟨rfl, rfl⟩
  refine ⟨hE, ?_, ?_, ?_⟩
  · intro hne
    obtain ⟨u, b2, hu, hb, _, _⟩ := roundRobin_nonempty b urls hne hc
    exact ⟨random_nonempty r rnd urls hne, u, b2, hu, hb⟩
  · constructor
    · rintro ⟨u, hu⟩
      by_contra hne
      obtain ⟨v, _, hv⟩ := random_nonempty r rnd urls hne
      rw [hv] at hu
      injection hu with hu
      injection hu with _ hu
      exact absurd hu (by simp)
    · intro he
      exact ⟨"", (hE he).1⟩
  · constructor
    · rintro ⟨u, b2, hu⟩
      by_contra hne
      obtain ⟨v, b3, _, hv, _, _⟩ := roundRobin_nonempty b urls hne hc
      rw [hv] at hu
      injection hu with hu
      injection hu with hu _
      injection hu with _ hu
      exact absurd hu (by simp)
    · intro he
      exact ⟨"", b, (hE he).2⟩

theorem doBalance_empty_iff_error_witness :
    (0 : Int) ≤ (RoundRobinBalance.mk 1).curIndex
      ∧ (RandomBalance.mk).DoBalance 7 [] = .ret ("", some .emptyUrls)
      ∧ (RoundRobinBalance.mk 1).DoBalance [] = .ret (("", some .emptyUrls), ⟨1⟩) :=
  ⟨by decide,
   (doBalance_empty_iff_error {} ⟨1⟩ 7 [] (by decide)).1 rfl⟩

/-- Claim C2. Evaluation of the name-selected strategy at the scenario of the
claim: with the draws 1, 0, 1 of the random source, three selections under
the name "roundrobin" over the two instances return the second, the first and
the second instance, not the first, second, first of the claim. -/
theorem roundrobin_name_selects_randomly :
    DoBalanceSeq mgr "roundrobin" ["http://10.0.0.1:8080", "http://10.0.0.2:8080"] [1, 0, 1]
      = .ret [("http://10.0.0.2:8080", none), ("http://10.0.0.1:8080", none),
              ("http://10.0.0.2:8080", none)] := by
  decide

/-- Claim C6. For every strategy name other than "random" and "roundrobin" and
every list, the package-level `DoBalance` panics: the map read yields the nil
interface and the method call on it aborts, so no error value is returned. -/
theorem doBalance_unregistered_panics (rnd : Nat) (name : String) (urls : List String)
    (h1 : name ≠ "random") (h2 : name ≠ "roundrobin") :
    DoBalance mgr rnd name urls = .panic := by
  have e1 : (name == "roundrobin") = false := by simpa using h2
  have e2 : (name == "random") = false := by simpa using h1
  have hget : mapGet mgr.balances name = none := by
    simp [mgr, init, mapGet, mapSet, List.lookup, e1, e2]
  unfold DoBalance
  simp only [hget]
  rfl

theorem doBalance_unregistered_panics_witness :
    ("weighted" : String) ≠ "random" ∧ ("weighted" : String) ≠ "roundrobin"
      ∧ DoBalance mgr 0 "weighted" ["http://10.0.0.1:8080"] = .panic :=
  ⟨by decide, by decide,
   doBalance_unregistered_panics 0 "weighted" ["http://10.0.0.1:8080"] (by decide) (by decide)⟩

end feign

/-! ## Properties of the discovery client -/

namespace eureka

/-- With at least one endpoint configured `pickUrl` returns one of them: the
first when there is only one, otherwise one at a position below `n - 1`. -/
theorem pickUrl_spec (c : Client) (rnd : Nat) (h : c.eurekaUrls ≠ []) :
    ∃ i, ∃ hi : i < c.eurekaUrls.length,
      pickUrl c rnd = .ret (c.eurekaUrls.get ⟨i, hi⟩)
        ∧ (c.eurekaUrls.length = 1 → i = 0)
        ∧ (1 < c.eurekaUrls.length → i = rnd % (c.eurekaUrls.length - 1)) := by
  have hpos : 0 < c.eurekaUrls.length := List.length_pos.mpr h
  by_cases h1 : 1 < c.eurekaUrls.length
  · have hlt : rnd % (c.eurekaUrls.length - 1) < c.eurekaUrls.length := by
      have := Nat.mod_lt rnd (show 0 < c.eurekaUrls.length - 1 by omega)
      omega
    refine ⟨rnd % (c.eurekaUrls.length - 1), hlt, ?_, by omega, fun _ => rfl⟩
    have hgt : ((c.eurekaUrls.length : Int) > 1) := by omega
    have hle : ¬ ((c.eurekaUrls.length : Int) - 1 ≤ 0) := by omega
    have hcast : ((rnd : Int) % ((c.eurekaUrls.length : Int) - 1))
        = ((rnd % (c.eurekaUrls.length - 1) : Nat) : Int) := by
      rw [Int.natCast_mod]
      congr 1
      omega
    unfold pickUrl Intn
    simp only [hgt, hle, if_true, if_false]
    rw [bind_ret, hcast, sliceIndex_nat _ _ hlt]
  · refine ⟨0, hpos, ?_, fun _ => rfl, fun h2 => absurd h2 h1⟩
    have hgt : ¬ ((c.eurekaUrls.length : Int) > 1) := by omega
    unfold pickUrl
    simp only [hgt, if_false]
    rw [pure_eq_ret, bind_ret]
    exact sliceIndex_nat _ 0 hpos

/-- Claim C5. Evaluation of `pickUrl` with two endpoints configured: whatever
the random draw, the first endpoint is returned; the second (last) one is
never selected. -/
theorem pickUrl_two_endpoints_never_last :
    ∀ rnd : Nat,
      pickUrl (clientWith ["http://a:8761/eureka/", "http://b:8761/eureka/"] none) rnd
        = .ret "http://a:8761/eureka/" := by
  intro rnd
  obtain ⟨i, hi, hp, _, h2⟩ :=
    pickUrl_spec (clientWith ["http://a:8761/eureka/", "http://b:8761/eureka/"] none) rnd
      (by simp [clientWith])
  have hi0 : i = 0 := by
    have := h2 (by simp [clientWith])
    simp [clientWith] at this
    omega
  subst hi0
  rw [hp]
  rfl

/-- Once the endpoint is picked, `doRefresh` is decided by `Refresh`. -/
theorem doRefresh_of_pick (c : Client) (rnd : Nat) (http : Http) (unmarshal : Unmarshal)
    (zone : String) (hp : pickUrl c rnd = .ret zone) :
    doRefresh c rnd http unmarshal
      = match Refresh http unmarshal zone with
        | (_, some e) => .ret (c, some e)
        | (applications, none) => .ret ({ c with Applications := applications }, none) := by
  unfold doRefresh
  rw [hp, bind_ret]
  rcases Refresh http unmarshal zone with ⟨a, _ | e⟩ <;> rfl

theorem Refresh_transport (http : Http) (unmarshal : Unmarshal) (zone e : String)
    (hr : http .GET (zone ++ "apps") = .error e) :
    Refresh http unmarshal zone = (none, some (.transport e)) := by
  simp only [Refresh, hr]

theorem Refresh_status (http : Http) (unmarshal : Unmarshal) (zone : String)
    (resp : Response) (hr : http .GET (zone ++ "apps") = .ok resp)
    (hs : resp.StatusCode ≠ 200) :
    Refresh http unmarshal zone = (none, some .statusNot200) := by
  simp only [Refresh, hr, hs, ne_eq, not_false_eq_true, if_true]

theorem Refresh_undecodable (http : Http) (unmarshal : Unmarshal) (zone e : String)
    (resp : Response) (hr : http .GET (zone ++ "apps") = .ok resp)
    (hs : resp.StatusCode = 200) (hu : unmarshal resp.Body = .error e) :
    Refresh http unmarshal zone = (none, some (.unmarshal e)) := by
  simp only [Refresh, hr, hs, hu, ne_eq, not_true_eq_false, if_false]

theorem Refresh_ok (http : Http) (unmarshal : Unmarshal) (zone : String)
    (resp : Response) (apps : Applications) (hr : http .GET (zone ++ "apps") = .ok resp)
    (hs : resp.StatusCode = 200) (hu : unmarshal resp.Body = .ok apps) :
    Refresh http unmarshal zone = (some apps, none) := by
  simp only [Refresh, hr, hs, hu, ne_eq, not_true_eq_false, if_false]

/-- Claim C8. For every client with at least one endpoint, every random draw,
network and decoder, `doRefresh` returns; when the fetch fails (transport
error, status other than 200, or undecodable body) it returns that error and
the client, cache included, is exactly as before; when the fetch succeeds it
returns nil and only the cache changes, to the decoded snapshot. -/
theorem doRefresh_failure_keeps_cache (c : Client) (rnd : Nat) (http : Http)
    (unmarshal : Unmarshal) (h : c.eurekaUrls ≠ []) :
    ∃ zone c2 err, pickUrl c rnd = .ret zone
      ∧ doRefresh c rnd http unmarshal = .ret (c2, err)
      ∧ (fetchFails unmarshal (http .GET (zone ++ "apps")) → err ≠ none ∧ c2 = c)
      ∧ (¬ fetchFails unmarshal (http .GET (zone ++ "apps")) →
          ∃ resp apps, http .GET (zone ++ "apps") = .ok resp
            ∧ unmarshal resp.Body = .ok apps
            ∧ err = none ∧ c2 = { c with Applications := some apps }) := by
  obtain ⟨i, hi, hp, _, _⟩ := pickUrl_spec c rnd h
  refine ⟨c.eurekaUrls.get ⟨i, hi⟩, ?_⟩
  rw [doRefresh_of_pick c rnd http unmarshal _ hp]
  cases hr : http .GET (c.eurekaUrls.get ⟨i, hi⟩ ++ "apps") with
  | error e =>
      rw [Refresh_transport http unmarshal _ e hr]
      exact ⟨c, some (.transport e), hp, rfl, fun _ => ⟨by simp, rfl⟩,
        fun hn => absurd (show fetchFails unmarshal (.error e) from trivial) hn⟩
  | ok resp =>
      by_cases hs : resp.StatusCode = 200
      · cases hu : unmarshal resp.Body with
        | error e =>
            rw [Refresh_undecodable http unmarshal _ e resp hr hs hu]
            refine ⟨c, some (.unmarshal e), hp, rfl, fun _ => ⟨by simp, rfl⟩, ?_⟩
            intro hn
            exact absurd (show fetchFails unmarshal (.ok resp) from Or.inr ⟨e, hu⟩) hn
        | ok apps =>
            rw [Refresh_ok http unmarshal _ resp apps hr hs hu]
            refine ⟨{ c with Applications := some apps }, none, hp, rfl, ?_, ?_⟩
            · intro hf
              have hf2 : resp.StatusCode ≠ 200 ∨ ∃ e, unmarshal resp.Body = .error e := hf
              rcases hf2 with hf2 | ⟨e, he⟩
              · exact absurd hs hf2
              · rw [hu] at he
                cases he
            · intro _
              exact ⟨resp, apps, rfl, hu, rfl, rfl⟩
      · rw [Refresh_status http unmarshal _ resp hr hs]
        refine ⟨c, some .statusNot200, hp, rfl, fun _ => ⟨by simp, rfl⟩, ?_⟩
        intro hn
        exact absurd (show fetchFails unmarshal (.ok resp) from Or.inl hs) hn

theorem doRefresh_failure_keeps_cache_witness :
    (clientWith ["http://a:8761/eureka/"] (some ⟨[⟨"ORDERSERVICE", []⟩]⟩)).eurekaUrls ≠ []
      ∧ ∃ zone c2 err,
          pickUrl (clientWith ["http://a:8761/eureka/"] (some ⟨[⟨"ORDERSERVICE", []⟩]⟩)) 0
            = .ret zone
          ∧ doRefresh (clientWith ["http://a:8761/eureka/"] (some ⟨[⟨"ORDERSERVICE", []⟩]⟩)) 0
              (fun _ _ => .ok ⟨503, ""⟩) (fun _ => .ok ⟨[]⟩) = .ret (c2, err)
          ∧ err ≠ none
          ∧ c2 = clientWith ["http://a:8761/eureka/"] (some ⟨[⟨"ORDERSERVICE", []⟩]⟩) := by
  refine ⟨by simp [clientWith], ?_⟩
  obtain ⟨zone, c2, err, hp, hd, hf, _⟩ :=
    doRefresh_failure_keeps_cache
      (clientWith ["http://a:8761/eureka/"] (some ⟨[⟨"ORDERSERVICE", []⟩]⟩)) 0
      (fun _ _ => .ok ⟨503, ""⟩) (fun _ => .ok ⟨[]⟩) (by simp [clientWith])
  have hff := hf (show fetchFails _ (.ok ⟨503, ""⟩) from Or.inl (by decide))
  exact ⟨zone, c2, err, hp, hd, hff.1, hff.2⟩

/-- With an endpoint configured `doHeartbeat` returns what `Heartbeat` returns. -/
theorem doHeartbeat_spec (c : Client) (rnd : Nat) (http : Http) (h : c.eurekaUrls ≠ []) :
    ∃ zone, doHeartbeat c rnd http
      = .ret (Heartbeat http zone c.Config.instance_.App c.Config.instance_.InstanceID) := by
  obtain ⟨i, hi, hp, _, _⟩ := pickUrl_spec c rnd h
  exact ⟨_, by unfold doHeartbeat; rw [hp]; rfl⟩

/-- With an endpoint configured `doRegister` returns what `Register` returns. -/
theorem doRegister_spec (c : Client) (rnd : Nat) (http : Http) (h : c.eurekaUrls ≠ []) :
    ∃ zone, doRegister c rnd http
      = .ret (Register http zone c.Config.App c.Config.instance_) := by
  obtain ⟨i, hi, hp, _, _⟩ := pickUrl_spec c rnd h
  exact ⟨_, by unfold doRegister; rw [hp]; rfl⟩

/-- The function `Register` never returns `ErrNotFound`. -/
theorem Register_ne_notFound (http : Http) (zone app : String) (inst : Instance) :
    Register http zone app inst ≠ some .notFound := by
  unfold Register
  simp only []
  split
  · simp
  · split <;> simp

theorem Run.after_ret (es t : List Event) (fin : Bool) :
    Run.after es (.ret (t, fin)) = .ret (es ++ t, fin) := rfl

/-- Claim C4. Evaluation of the heartbeat loop where the registry answers the
first heartbeat with 404, the registration with 204 and the second heartbeat
with 200: one registration attempt is made, and the second heartbeat call
follows it directly, with no sleep of the renewal interval (30 seconds) in
between; the only sleep of the run comes after the second heartbeat. -/
theorem heartbeat_notFound_no_wait :
    heartbeat (scriptedEnv (fun n => if n = 0 then .ok ⟨404, ""⟩ else
          if n = 1 then .ok ⟨204, ""⟩ else .ok ⟨200, ""⟩))
        (clientWith ["http://a:8761/eureka/"] none) 2 0 0
      = .ret ([.heartbeat (some .notFound), .register none, .heartbeat none, .sleep 30], false)
    ∧ everyWindow (reRegistersThenWaits 30)
        [.heartbeat (some .notFound), .register none, .heartbeat none, .sleep 30] = false := by
  constructor
  · decide
  · decide

/-- The same loop where the registry answers every call with 404, so that the
re-registration fails as well: heartbeat and registration calls alternate
and the run contains no sleep at all. -/
theorem heartbeat_notFound_spins :
    heartbeat (scriptedEnv (fun _ => .ok ⟨404, ""⟩))
        (clientWith ["http://a:8761/eureka/"] none) 3 0 0
      = .ret ([.heartbeat (some .notFound), .register (some .statusNot2xx),
               .heartbeat (some .notFound), .register (some .statusNot2xx),
               .heartbeat (some .notFound), .register (some .statusNot2xx)], false) := by
  decide

/-- The registration loop with `k` failing replies followed by a successful
one. -/
theorem registerLoop_retries (env : Env) (c : Client) (h : c.eurekaUrls ≠ []) (extra k : Nat) :
    ∀ n,
      (∀ i, i < k → ∀ zone,
        Register (env.http (n + i)) zone c.Config.App c.Config.instance_ ≠ none) →
      (∀ zone, Register (env.http (n + k)) zone c.Config.App c.Config.instance_ = none) →
      ∃ errs : List GoError, errs.length = k
        ∧ registerLoop env c (extra + k + 1) n
            = .ret (failedAttempts errs ++ [.register none], true) := by
  induction k with
  | zero =>
      intro n _ hok
      obtain ⟨zone, hz⟩ := doRegister_spec c (env.rand n) (env.http n) h
      refine ⟨[], rfl, ?_⟩
      have hok0 := hok zone
      rw [Nat.add_zero] at hok0
      show registerLoop env c (Nat.succ extra) n = _
      unfold registerLoop
      rw [hz, bind_ret, hok0]
      rfl
  | succ k ih =>
      intro n hfail hok
      obtain ⟨zone, hz⟩ := doRegister_spec c (env.rand n) (env.http n) h
      have hf0 := hfail 0 (Nat.succ_pos k) zone
      obtain ⟨errs, hlen, hrun⟩ := ih (n + 1)
        (fun i hi zone => by
          have := hfail (i + 1) (Nat.succ_lt_succ hi) zone
          rwa [show n + (i + 1) = n + 1 + i by omega] at this)
        (fun zone => by
          have := hok zone
          rwa [show n + (k + 1) = n + 1 + k by omega] at this)
      cases he : Register (env.http n) zone c.Config.App c.Config.instance_ with
      | none => exact absurd he hf0
      | some e =>
          refine ⟨e :: errs, by simp [hlen], ?_⟩
          show registerLoop env c (Nat.succ (extra + k + 1)) n = _
          unfold registerLoop
          rw [hz, bind_ret, he]
          simp only []
          rw [hrun]
          rfl

theorem Split_ne_nil (s : String) (sep : Char) : Split s sep ≠ [] := by
  unfold Split
  intro hnil
  exact List.splitOnP_ne_nil _ _ (List.map_eq_nil_iff.mp hnil)

/-- Claim C7. For every client (whose endpoint list is filled whenever its
`once` has already run) and every run in which the first `k` registration
attempts fail and attempt number `k` succeeds, `Start` given enough loop
iterations makes exactly `k + 1` registration attempts, sleeps 5 seconds
after each failed one, and launches the refresh, heartbeat and signal tasks
after the successful attempt and not before. -/
theorem start_retries_then_launches (env : Env) (c : Client) (k extra : Nat)
    (hinv : c.once = true → c.eurekaUrls ≠ [])
    (hfail : ∀ i, i < k → ∀ zone,
      Register (env.http i) zone c.Config.App c.Config.instance_ ≠ none)
    (hok : ∀ zone, Register (env.http k) zone c.Config.App c.Config.instance_ = none) :
    ∃ errs : List GoError, errs.length = k
      ∧ (Start env c (extra + k + 1)).2
          = .ret (failedAttempts errs
                    ++ [.register none, .go .refresh, .go .heartbeat, .go .handleSignal], true)
      ∧ (Start env c (extra + k + 1)).1.Running = true := by
  have hcfg : (Start env c (extra + k + 1)).1.Config = c.Config := by
    unfold Start
    by_cases ho : c.once = true <;> simp [ho]
  have hne : (Start env c (extra + k + 1)).1.eurekaUrls ≠ [] := by
    unfold Start
    by_cases ho : c.once = true
    · simpa [ho] using hinv ho
    · simpa [ho] using Split_ne_nil c.Config.DefaultZone ','
  have hrunning : (Start env c (extra + k + 1)).1.Running = true := rfl
  have hdef : (Start env c (extra + k + 1)).2
      = (registerLoop env (Start env c (extra + k + 1)).1 (extra + k + 1) 0 >>= fun r =>
          if r.2 then
            pure (r.1 ++ [.go .refresh, .go .heartbeat, .go .handleSignal], true)
          else pure (r.1, false)) := rfl
  obtain ⟨errs, hlen, hrun⟩ :=
    registerLoop_retries env (Start env c (extra + k + 1)).1 hne extra k 0
      (fun i hi zone => by
        rw [hcfg, Nat.zero_add]
        exact hfail i hi zone)
      (fun zone => by
        rw [hcfg, Nat.zero_add]
        exact hok zone)
  refine ⟨errs, hlen, ?_, hrunning⟩
  rw [hdef, hrun, bind_ret]
  simp [pure_eq_ret]

theorem start_retries_then_launches_witness :
    ∃ errs : List GoError, errs.length = 3
      ∧ (Start (scriptedEnv (fun n => if n < 3 then .ok ⟨503, ""⟩ else .ok ⟨204, ""⟩))
            (unstarted (configFor "http://a:8761/eureka/,http://b:8761/eureka/")) 4).2
          = .ret (failedAttempts errs
                    ++ [.register none, .go .refresh, .go .heartbeat, .go .handleSignal], true) := by
  obtain ⟨errs, hlen, hrun, _⟩ :=
    start_retries_then_launches
      (scriptedEnv (fun n => if n < 3 then .ok ⟨503, ""⟩ else .ok ⟨204, ""⟩))
      (unstarted (configFor "http://a:8761/eureka/,http://b:8761/eureka/")) 3 0
      (by intro ho; cases ho)
      (by
        intro i hi zone
        have hi3 : i < 3 := hi
        simp [Register, scriptedEnv, hi3])
      (by
        intro zone
        simp [Register, scriptedEnv])
  exact ⟨errs, hlen, hrun⟩

end eureka

/-! ## Properties of the dispatch client -/

namespace feign

theorem toUpper_idem_range (n : Nat) (h1 : 97 ≤ n) (h2 : n ≤ 122) :
    (Char.ofNat n).toUpper.toUpper = (Char.ofNat n).toUpper := by
  interval_cases n <;> rfl

theorem toUpper_idem (ch : Char) : ch.toUpper.toUpper = ch.toUpper := by
  by_cases h : ch.toNat ≥ 97 ∧ ch.toNat ≤ 122
  · have := toUpper_idem_range ch.toNat h.1 h.2
    rwa [Char.ofNat_toNat] at this
  · have hc : ch.toUpper = ch := by
      unfold Char.toUpper
      simp only [h, if_false]
    rw [hc, hc]

theorem asciiUpper_idem (s : String) : asciiUpper (asciiUpper s) = asciiUpper s := by
  show String.mk ((String.mk (s.toList.map Char.toUpper)).toList.map Char.toUpper)
    = String.mk (s.toList.map Char.toUpper)
  have hdata : (String.mk (s.toList.map Char.toUpper)).toList = s.toList.map Char.toUpper := rfl
  rw [hdata, List.map_map]
  congr 1
  apply List.map_congr_left
  intro ch _
  exact toUpper_idem ch

/-- The builder steps keep the client pointer of the request. -/
theorem fill_client (c : Client) (request : Request) :
    (c.fill request).client = request.client := by
  unfold Client.fill
  cases c.body <;> cases c.result <;> cases c.params <;> cases c.headers <;> rfl

/-- Lookup of a name no application of the snapshot bears. -/
theorem getApplication_absent (c : Client) (ec : eureka.Client)
    (snapshot : eureka.Applications) (app : String)
    (hc : c.eurekaClient = some ec) (hs : ec.Applications = some snapshot)
    (habs : ∀ a, a ∈ snapshot.Applications → a.Name ≠ app) :
    c.getApplication app = .ret ({ Name := "", Instances := [] }, false) := by
  have hfind : snapshot.Applications.find? (fun application => application.Name == app)
      = none := by
    rw [List.find?_eq_none]
    intro a ha
    simpa using habs a ha
  unfold Client.getApplication
  simp only [hc, hs, hfind]

/-- For a name absent from the snapshot `app` returns the nil client. -/
theorem app_absent (c : Client) (ec : eureka.Client) (snapshot : eureka.Applications)
    (m : BalanceManager) (rnd : Nat) (app : String)
    (hc : c.eurekaClient = some ec) (hs : ec.Applications = some snapshot)
    (habs : ∀ a, a ∈ snapshot.Applications → a.Name ≠ app) :
    c.app m rnd app = .ret (none, m) := by
  unfold Client.app Client.getAppUrls
  rw [getApplication_absent c ec snapshot app hc hs habs]
  rfl

/-- Claim C3. For every cache snapshot and every request whose (normalised)
application name no application of the snapshot bears, `Get` and `Post` panic:
`app` returns the nil client, the request is built from it, and executing it
dereferences nil. No `Result` is returned and no HTTP exchange takes place. -/
theorem dispatch_absent_application_panics (c : Client) (ec : eureka.Client)
    (snapshot : eureka.Applications) (parse : UrlParse) (upper : Upper) (send : Send)
    (m : BalanceManager) (rnd : Nat) (rawURL : String) (u : URL)
    (hc : c.eurekaClient = some ec) (hs : ec.Applications = some snapshot)
    (hu : parse rawURL = .ok u)
    (habs : ∀ a, a ∈ snapshot.Applications → a.Name ≠ upper u.Host) :
    c.Get parse upper send m rnd rawURL = .panic
      ∧ c.Post parse upper send m rnd rawURL = .panic := by
  have happ := app_absent c ec snapshot m rnd (upper u.Host) hc hs habs
  constructor
  · unfold Client.Get
    simp only [hu]
    rw [happ, bind_ret]
    simp only [Execute, fill_client, R]
    rfl
  · unfold Client.Post
    simp only [hu]
    rw [happ, bind_ret]
    simp only [Execute, fill_client, R]
    rfl

theorem dispatch_absent_application_panics_witness :
    (clientOver [⟨"INVENTORY", []⟩]).Get (fun _ => .ok ⟨"orderservice", "/orders", ""⟩)
        asciiUpper (fun _ _ _ _ => ⟨some ⟨200, ""⟩, none⟩) mgr 0 "http://orderservice/orders"
      = .panic
    ∧ (clientOver [⟨"INVENTORY", []⟩]).Post (fun _ => .ok ⟨"orderservice", "/orders", ""⟩)
        asciiUpper (fun _ _ _ _ => ⟨some ⟨200, ""⟩, none⟩) mgr 0 "http://orderservice/orders"
      = .panic :=
  dispatch_absent_application_panics (clientOver [⟨"INVENTORY", []⟩])
    (eureka.clientWith ["http://localhost:8761/eureka/"] (some ⟨[⟨"INVENTORY", []⟩]⟩))
    ⟨[⟨"INVENTORY", []⟩]⟩ (fun _ => .ok ⟨"orderservice", "/orders", ""⟩) asciiUpper
    (fun _ _ _ _ => ⟨some ⟨200, ""⟩, none⟩) mgr 0 "http://orderservice/orders"
    ⟨"orderservice", "/orders", ""⟩ rfl rfl rfl
    (by
      intro a ha
      simp only [List.mem_singleton] at ha
      subst ha
      decide)

/-- Claim C10, as amended. For every cache snapshot and requested name, with
`upper` the case normalisation of `Get` and `Post`: the lookup returns; it
finds an application whenever the snapshot contains one whose name equals the
normalised requested name exactly; and any application it returns belongs to
the snapshot and bears exactly the normalised name, hence a name equal to the
requested one ignoring letter case. -/
theorem lookup_matches_normalised_name (c : Client) (ec : eureka.Client)
    (snapshot : eureka.Applications) (upper : Upper) (host : String)
    (hc : c.eurekaClient = some ec) (hs : ec.Applications = some snapshot)
    (hidem : ∀ s, upper (upper s) = upper s) :
    (∃ r, c.lookup upper host = .ret r)
      ∧ ((∃ a, a ∈ snapshot.Applications ∧ a.Name = upper host) →
          ∃ a, a ∈ snapshot.Applications ∧ c.lookup upper host = .ret (a, true))
      ∧ (∀ a, c.lookup upper host = .ret (a, true) →
          a ∈ snapshot.Applications ∧ a.Name = upper host
            ∧ eqIgnoreCase upper a.Name host) := by
  unfold Client.lookup Client.getApplication
  simp only [hc, hs]
  cases hf : snapshot.Applications.find? (fun application => application.Name == upper host) with
  | none =>
      refine ⟨⟨_, rfl⟩, ?_, ?_⟩
      · rintro ⟨a, ha, hn⟩
        rw [List.find?_eq_none] at hf
        exact absurd (by simpa using hn) (hf a ha)
      · intro a h
        injection h with h
        injection h with _ h
        cases h
  | some b =>
      have hb : b.Name = upper host := by
        have := List.find?_some hf
        simpa using this
      have hmem : b ∈ snapshot.Applications := List.mem_of_find?_eq_some hf
      refine ⟨⟨_, rfl⟩, fun _ => ⟨b, hmem, rfl⟩, ?_⟩
      intro a h
      injection h with h
      injection h with h _
      subst h
      exact ⟨hmem, hb, by unfold eqIgnoreCase; rw [hb, hidem]⟩

theorem lookup_matches_normalised_name_witness :
    ∃ a, a ∈ [(⟨"ORDERSERVICE", []⟩ : eureka.Application)]
      ∧ (clientOver [⟨"ORDERSERVICE", []⟩]).lookup asciiUpper "orderService" = .ret (a, true) :=
  (lookup_matches_normalised_name (clientOver [⟨"ORDERSERVICE", []⟩])
    (eureka.clientWith ["http://localhost:8761/eureka/"] (some ⟨[⟨"ORDERSERVICE", []⟩]⟩))
    ⟨[⟨"ORDERSERVICE", []⟩]⟩ asciiUpper "orderService" rfl rfl asciiUpper_idem).2.1
    ⟨⟨"ORDERSERVICE", []⟩, by simp, by decide⟩

/-- Claim C10 as stated fails. The snapshot holds an application named
"orderservice" and the request names "orderservice", the same string, yet the
lookup reports that no application was found: it searches for "ORDERSERVICE". -/
theorem lookup_misses_lower_case_name :
    (∃ a, a ∈ [(⟨"orderservice", []⟩ : eureka.Application)]
        ∧ eqIgnoreCase asciiUpper a.Name "orderservice")
      ∧ (clientOver [⟨"orderservice", []⟩]).lookup asciiUpper "orderservice"
          = .ret (⟨"", []⟩, false) :=
  ⟨⟨⟨"orderservice", []⟩, by simp, rfl⟩, by decide⟩

end feign

end EurekaClient
